import Mathlib

/-!
Verification development for the password-tools repository.

The repository consists of a Next.js web front end (`PasswordGeneratorForm`),
an API route (`POST /api/generate`) that sanitizes the request and spawns the
Python generator (`invokePython`), and the Python core generator itself.
This file shallowly embeds the TypeScript sanitization, routing and form-state
logic, and models the core character-password generator from the written
specification (the Python core is not part of the embedded sources).

JavaScript numbers are modelled as `JNum` (NaN or a rational); the operations
embedded here perform only comparisons and integer arithmetic on them, so the
rational model is exact on every reachable value.
-/

/-- A JavaScript number: NaN or a (finite) numeric value, modelled as a rational. -/
inductive JNum where
  | nan
  | val (q : ℚ)
deriving DecidableEq

/-- A JavaScript value as it can appear in a parsed JSON payload field
(or `undefined` for an absent field). -/
inductive JSValue where
  | undefined
  | null
  | bool (b : Bool)
  | num (q : ℚ)
  | nan
  | str (s : String)
deriving DecidableEq

/-- The set of characters removed by JavaScript's `String.prototype.trim`
(and skipped by `parseInt`): ASCII whitespace plus the Unicode space
separators, line separators and the BOM. -/
def jsIsWhitespace (c : Char) : Bool :=
  c == ' ' || c == '\t' || c == '\n' || c == '\r' ||
  c == '\u000B' || c == '\u000C' || c == '\u00A0' || c == '\u1680' ||
  (0x2000 ≤ c.toNat && c.toNat ≤ 0x200A) ||
  c == '\u2028' || c == '\u2029' || c == '\u202F' || c == '\u205F' ||
  c == '\u3000' || c == '\uFEFF'

/-- JavaScript `s.trim()`: drop leading and trailing whitespace. -/
def jsTrim (s : String) : String :=
  String.mk (((s.data.dropWhile jsIsWhitespace).reverse.dropWhile jsIsWhitespace).reverse)

/-- Value of a non-empty list of decimal digit characters. -/
def digitsVal (ds : List Char) : Nat :=
  ds.foldl (fun acc c => acc * 10 + (c.toNat - 48)) 0

/-- Longest leading run of decimal digits, or `none` if there is none. -/
def parseDigits (cs : List Char) : Option Nat :=
  let ds := cs.takeWhile Char.isDigit
  if ds = [] then none else some (digitsVal ds)

/-- JavaScript `Number.parseInt(s, 10)`: skip leading whitespace, read an
optional sign and then the longest run of decimal digits; `none` models the
NaN result when no digit is found. -/
def jsParseInt (s : String) : Option Int :=
  match s.data.dropWhile jsIsWhitespace with
  | '-' :: rest => (parseDigits rest).map (fun n => -(n : Int))
  | '+' :: rest => (parseDigits rest).map (fun n => (n : Int))
  | cs => (parseDigits cs).map (fun n => (n : Int))

/-- Per-field limits of the API route (`LIMITS` in the route module). -/
structure NumLimit where
  min : ℚ
  max : ℚ
  default : ℚ
deriving DecidableEq

/-- The numeric request fields the API route sanitizes. -/
inductive NumKey where
  | length
  | specialCount
  | digitCount
  | mixedCaseCount
  | wordCount
  | passphraseDigitCount
  | passphraseSpecialCount
  | passphraseMixedCount
deriving DecidableEq

/-- The `LIMITS` table of the API route. -/
def LIMITS : NumKey → NumLimit
  | .length => ⟨4, 256, 16⟩
  | .specialCount => ⟨0, 64, 2⟩
  | .digitCount => ⟨0, 64, 2⟩
  | .mixedCaseCount => ⟨0, 128, 6⟩
  | .wordCount => ⟨2, 16, 4⟩
  | .passphraseDigitCount => ⟨0, 32, 2⟩
  | .passphraseSpecialCount => ⟨0, 32, 1⟩
  | .passphraseMixedCount => ⟨0, 64, 2⟩

/-- The API route's `clamp`: NaN maps to `lo`, otherwise
`Math.max(lo, Math.min(value, hi))`. -/
def clamp : JNum → ℚ → ℚ → ℚ
  | .nan, lo, _ => lo
  | .val q, lo, hi => max lo (min q hi)

/-- The form's `clampValue`: NaN maps to `lo`, otherwise
`Math.min(Math.max(value, lo), hi)`. -/
def clampValue : JNum → ℚ → ℚ → ℚ
  | .nan, lo, _ => lo
  | .val q, lo, hi => min (max q lo) hi

/-- The API route's `sanitizeNumber`: an integer number is clamped into the
field's limits; a string with non-blank content whose `parseInt` yields an
integer is clamped likewise; everything else yields the field's default. -/
def sanitizeNumber (raw : JSValue) (key : NumKey) : ℚ :=
  let limits := LIMITS key
  match raw with
  | .num q => if q.den = 1 then clamp (.val q) limits.min limits.max else limits.default
  | .str s =>
    if jsTrim s ≠ "" then
      match jsParseInt s with
      | some n => clamp (.val (n : ℚ)) limits.min limits.max
      | none => limits.default
    else limits.default
  | _ => limits.default

/-- A character admitted by the route's `SAFE_SEPARATOR_REGEX` character
class `[\w\-_.:|~]` (no Unicode flag, so `\w` is ASCII `[A-Za-z0-9_]`). -/
def isSafeSeparatorChar (c : Char) : Bool :=
  c.isAlphanum || c == '_' || c == '-' || c == '.' || c == ':' || c == '|' || c == '~'

/-- The test performed by `SAFE_SEPARATOR_REGEX` = `/^[\w\-_.:|~]{0,5}$/`. -/
def safeSeparatorMatch (s : String) : Bool :=
  s.length ≤ 5 && s.data.all isSafeSeparatorChar

/-- The API route's `sanitizeSeparator`: non-strings, strings trimming to
empty, and trimmed strings failing the safe regex are replaced by `"-"`;
otherwise the trimmed string is kept. -/
def sanitizeSeparator (raw : JSValue) : String :=
  match raw with
  | .str s =>
    let trimmed := jsTrim s
    if trimmed = "" then "-"
    else if safeSeparatorMatch trimmed then trimmed
    else "-"
  | _ => "-"

/-- The API route's `sanitizeBoolean`. -/
def sanitizeBoolean (raw : JSValue) (fallback : Bool) : Bool :=
  match raw with
  | .bool b => b
  | .str s => if s = "true" then true else if s = "false" then false else fallback
  | _ => fallback

/-- JavaScript `String(n)` for the integer-valued numbers the route passes to
the generator (every number it stringifies is an integer). -/
def jsNumToString (q : ℚ) : String :=
  if q.den = 1 then toString q.num else toString q

/-- The property reads the route performs on a parsed request body that
supports property access: one `JSValue` per accessed property (an absent
property reads as `undefined`; primitives and arrays read every field as
`undefined`). A body parsing to JSON null supports no property access and is
modelled separately by `ParsedBody.nullBody`. -/
structure Payload where
  mode : JSValue
  length : JSValue
  specialCount : JSValue
  digitCount : JSValue
  mixedCaseCount : JSValue
  wordCount : JSValue
  wordSeparator : JSValue
  passphraseDigitCount : JSValue
  passphraseSpecialCount : JSValue
  passphraseMixedCount : JSValue
  randomizeWordCapitalization : JSValue
deriving DecidableEq

/-- The two generation modes of the route. -/
inductive Mode where
  | characters
  | words
deriving DecidableEq

/-- Line 143 of the route: `payload.mode === "words" ? "words" : "characters"`. -/
def selectedMode (p : Payload) : Mode :=
  if p.mode = .str "words" then .words else .characters

/-- The response body returned by the route. -/
inductive RBody where
  | password (value : String)
  | error (message : String)
deriving DecidableEq

/-- An HTTP response of the route: a status code and a JSON body. -/
structure ApiResponse where
  status : Nat
  body : RBody
deriving DecidableEq

/-- Outcome of the spawned generator process: either the `close` event with
an exit code (`none` models termination by signal) and the accumulated
stdout/stderr, or the `error` event when spawning failed. -/
inductive ProcOutcome where
  | closed (code : Option Int) (stdout : String) (stderr : String)
  | failedToStart (message : String)
deriving DecidableEq

/-- Strip one trailing carriage return (the `\r` consumed by `/\r?\n/`). -/
def splitCRLFAux : List Char → List Char → List (List Char)
  | [], acc => [acc.reverse]
  | '\r' :: '\n' :: rest, acc => acc.reverse :: splitCRLFAux rest []
  | '\n' :: rest, acc => acc.reverse :: splitCRLFAux rest []
  | c :: rest, acc => splitCRLFAux rest (c :: acc)

/-- JavaScript `s.split(/\r?\n/)`: split on `\n`, consuming one `\r`
immediately before it. -/
def splitCRLF (s : String) : List String :=
  (splitCRLFAux s.data []).map String.mk

/-- The line `invokePython` resolves with on exit code 0, before trimming:
the last line of the trimmed stdout whose own trim is non-empty. -/
def lastNonBlankLine (stdout : String) : Option String :=
  (splitCRLF (jsTrim stdout)).reverse.find? (fun line => jsTrim line != "")

/-- The route's `invokePython`, as a function of the subprocess outcome:
on exit code 0 it resolves with the trimmed last non-blank stdout line or
rejects if there is none; on any other exit it rejects with the trimmed
stderr, or a generic message when that is empty; a spawn error rejects with
the spawn error itself. -/
def invokePython (proc : ProcOutcome) : Except String String :=
  match proc with
  | .failedToStart message => .error message
  | .closed code stdout stderr =>
    if code = some 0 then
      match lastNonBlankLine stdout with
      | some lastLine => .ok (jsTrim lastLine)
      | none => .error "Password generator produced no output."
    else
      .error (if jsTrim stderr ≠ "" then jsTrim stderr else "Password generator failed.")

/-- Whether the sanitized character-mode counts exceed the sanitized length
(the route's only validation check after JSON parsing). -/
def charCountsExceed (p : Payload) : Prop :=
  sanitizeNumber p.specialCount .specialCount + sanitizeNumber p.digitCount .digitCount +
      sanitizeNumber p.mixedCaseCount .mixedCaseCount >
    sanitizeNumber p.length .length

instance (p : Payload) : Decidable (charCountsExceed p) := by
  unfold charCountsExceed; infer_instance

/-- The argument vector the route builds in character mode. -/
def characterArgs (p : Payload) : List String :=
  ["--length", jsNumToString (sanitizeNumber p.length .length),
   "--special-count", jsNumToString (sanitizeNumber p.specialCount .specialCount),
   "--digit-count", jsNumToString (sanitizeNumber p.digitCount .digitCount),
   "--mixed-case-count", jsNumToString (sanitizeNumber p.mixedCaseCount .mixedCaseCount)]

/-- The argument vector the route builds in passphrase mode. -/
def passphraseArgs (p : Payload) : List String :=
  ["--use-words",
   "--word-count", jsNumToString (sanitizeNumber p.wordCount .wordCount),
   "--word-separator", sanitizeSeparator p.wordSeparator,
   "--passphrase-digit-count", jsNumToString (sanitizeNumber p.passphraseDigitCount .passphraseDigitCount),
   "--passphrase-special-count", jsNumToString (sanitizeNumber p.passphraseSpecialCount .passphraseSpecialCount),
   "--passphrase-mixed-count", jsNumToString (sanitizeNumber p.passphraseMixedCount .passphraseMixedCount)] ++
  (if sanitizeBoolean p.randomizeWordCapitalization true then ["--randomize-word-case"]
   else ["--no-randomize-word-case"])

/-- What the POST handler decides before touching the subprocess: either an
early response (JSON parse failure or the count check) or the argument
vector it will invoke the generator with. -/
inductive Routed where
  | early (response : ApiResponse)
  | invoke (args : List String)
deriving DecidableEq

/-- The validation and argument-building stage of the route's `POST`
handler; `none` models a body `request.json()` failed to parse. -/
def routeRequest (req : Option Payload) : Routed :=
  match req with
  | none => .early ⟨400, .error "Invalid JSON body."⟩
  | some payload =>
    match selectedMode payload with
    | .characters =>
      if charCountsExceed payload then
        .early ⟨400, .error "Sum of selected character counts cannot exceed total length."⟩
      else
        .invoke (characterArgs payload)
    | .words => .invoke (passphraseArgs payload)

/-- The route's `POST` handler, as a function of the parsed request and the
subprocess outcome observed when the generator is invoked. -/
def POST (req : Option Payload) (proc : ProcOutcome) : ApiResponse :=
  match routeRequest req with
  | .early response => response
  | .invoke _ =>
    match invokePython proc with
    | .ok password => ⟨200, .password password⟩
    | .error _ => ⟨500, .error "Unable to generate password at this time."⟩

/-- The outcome of `await request.json()` at the top of the POST handler:
the promise rejects (a parse failure, caught and answered with a 400), or it
resolves with JSON null, or it resolves with any other JSON value, whose
property reads form a `Payload` record. -/
inductive ParsedBody where
  | failed
  | nullBody
  | obj (p : Payload)
deriving DecidableEq

/-- What escapes the POST handler: either a response it returns, or an
uncaught exception (the TypeError thrown by reading `mode` of a null payload
at line 143, which sits outside both try blocks of the handler). -/
inductive HandlerOutcome where
  | response (r : ApiResponse)
  | uncaught
deriving DecidableEq

/-- The POST handler over the full space of parse outcomes: a parse failure
takes the handler's own 400 path; a body parsing to JSON null reaches the
`payload.mode` read, which throws outside both try blocks, so no response of
the handler is produced; every other parsed body proceeds through `POST`. -/
def POSTFull (req : ParsedBody) (proc : ProcOutcome) : HandlerOutcome :=
  match req with
  | .failed => .response (POST none proc)
  | .nullBody => .uncaught
  | .obj p => .response (POST (some p) proc)

/-- Whether a handler outcome is one of the three response shapes of the
route's contract: 200 with a password body, 400 with an error body, or 500
with an error body. -/
def isEnumeratedResponse (o : HandlerOutcome) : Bool :=
  match o with
  | .response ⟨200, .password _⟩ => true
  | .response ⟨400, .error _⟩ => true
  | .response ⟨500, .error _⟩ => true
  | _ => false

/-- Whether `sanitizeNumber` finds `raw` usable (an integer number, or a
string with non-blank content that `parseInt` parses). -/
def numberUsable (raw : JSValue) : Bool :=
  match raw with
  | .num q => q.den = 1
  | .str s => (jsTrim s != "") && (jsParseInt s).isSome
  | _ => false

/-- Whether `sanitizeSeparator` keeps (the trim of) `raw` instead of the
default separator. -/
def separatorUsable (raw : JSValue) : Bool :=
  match raw with
  | .str s => (jsTrim s != "") && safeSeparatorMatch (jsTrim s)
  | _ => false

/-- Whether `sanitizeBoolean` reads a value out of `raw` instead of the
fallback. -/
def booleanUsable (raw : JSValue) : Bool :=
  match raw with
  | .bool _ => true
  | .str s => s == "true" || s == "false"
  | _ => false

/-- The character-mode form state of `PasswordGeneratorForm`. -/
structure CharacterFormState where
  length : ℚ
  specialCount : ℚ
  digitCount : ℚ
  mixedCaseCount : ℚ
  excludeAmbiguous : Bool
deriving DecidableEq

/-- The passphrase-mode form state of `PasswordGeneratorForm`. -/
structure PassphraseFormState where
  wordCount : ℚ
  wordSeparator : String
  passphraseDigitCount : ℚ
  passphraseSpecialCount : ℚ
  passphraseMixedCount : ℚ
  randomizeWordCapitalization : Bool
  excludeAmbiguous : Bool
deriving DecidableEq

/-- The form's `CHARACTER_DEFAULTS` constant. -/
def CHARACTER_DEFAULTS : CharacterFormState :=
  { length := 16, specialCount := 2, digitCount := 2, mixedCaseCount := 6,
    excludeAmbiguous := false }

/-- The form's `PASSPHRASE_DEFAULTS` constant. -/
def PASSPHRASE_DEFAULTS : PassphraseFormState :=
  { wordCount := 4, wordSeparator := "-", passphraseDigitCount := 2,
    passphraseSpecialCount := 1, passphraseMixedCount := 2,
    randomizeWordCapitalization := true, excludeAmbiguous := false }

/-- The initial character form state: `useState(CHARACTER_DEFAULTS)`. -/
def initialCharacterState : CharacterFormState := CHARACTER_DEFAULTS

/-- The initial passphrase form state: `useState(PASSPHRASE_DEFAULTS)`. -/
def initialPassphraseState : PassphraseFormState := PASSPHRASE_DEFAULTS

/-- Bounds of one numeric field of the character form. -/
structure FieldBounds where
  min : ℚ
  max : ℚ
deriving DecidableEq

/-- The numeric fields of the character form. -/
inductive CharField where
  | length
  | specialCount
  | digitCount
  | mixedCaseCount
deriving DecidableEq

/-- The form's `CHARACTER_LIMITS` constant. -/
def CHARACTER_LIMITS : CharField → FieldBounds
  | .length => ⟨4, 256⟩
  | .specialCount => ⟨0, 64⟩
  | .digitCount => ⟨0, 64⟩
  | .mixedCaseCount => ⟨0, 128⟩

/-- Read one numeric field of the character form state. -/
def charFieldValue (s : CharacterFormState) : CharField → ℚ
  | .length => s.length
  | .specialCount => s.specialCount
  | .digitCount => s.digitCount
  | .mixedCaseCount => s.mixedCaseCount

/-- The form's `parseToInt`: the empty string and unparseable strings yield
the fallback, otherwise the `parseInt` value. -/
def parseToInt (value : String) (fallback : ℚ) : ℚ :=
  if value = "" then fallback
  else
    match jsParseInt value with
    | some n => (n : ℚ)
    | none => fallback

/-- One `onChange` update of a numeric character-form field: the input is
parsed with the previous value as fallback, then clamped into the field's
limits; the other fields are left unchanged. -/
def updateCharacterField (f : CharField) (prev : CharacterFormState) (input : String) :
    CharacterFormState :=
  let b := CHARACTER_LIMITS f
  let v := clampValue (.val (parseToInt input (charFieldValue prev f))) b.min b.max
  match f with
  | .length => { prev with length := v }
  | .specialCount => { prev with specialCount := v }
  | .digitCount => { prev with digitCount := v }
  | .mixedCaseCount => { prev with mixedCaseCount := v }

/-- The invariant that every numeric character-form field lies within its
documented bounds. -/
def charInBounds (s : CharacterFormState) : Prop :=
  (4 ≤ s.length ∧ s.length ≤ 256) ∧
  (0 ≤ s.specialCount ∧ s.specialCount ≤ 64) ∧
  (0 ≤ s.digitCount ∧ s.digitCount ≤ 64) ∧
  (0 ≤ s.mixedCaseCount ∧ s.mixedCaseCount ≤ 128)

instance (s : CharacterFormState) : Decidable (charInBounds s) := by
  unfold charInBounds; infer_instance

/-- Modelled from the spec: the core generator (`password_generator.py`) is
not among the embedded sources, so the character alphabets follow section 3
of the specification. Digit pool `0123456789`. -/
def DIGIT_POOL : List Char := "0123456789".data

/-- Modelled from the spec: special pool. -/
def SPECIAL_POOL : List Char := "$%^@!&*".data

/-- Modelled from the spec: the lowercase filler pool, also the base of the
mixed-case draw (a drawn letter is upper-cased with probability one half). -/
def LOWERCASE_POOL : List Char := "abcdefghijklmnopqrstuvwxyz".data

/-- Modelled from the spec: the documented ambiguous characters. -/
def AMBIGUOUS_CHARS : List Char := "l1IO0".data

/-- Modelled from the spec: remove the ambiguous characters from a pool when
`excludeAmbiguous` is set. -/
def filterAmbiguous (excl : Bool) (pool : List Char) : List Char :=
  if excl then pool.filter (fun c => !(AMBIGUOUS_CHARS.contains c)) else pool

/-- Modelled from the spec: `SecureRandomSource.uniformIndex`, over an
abstract tape of random draws indexed by `k`. -/
def uniformIndex (rand : Nat → Nat) (k n : Nat) : Nat := rand k % n

/-- Modelled from the spec: draw `count` characters independently and
uniformly from `pool`, consuming tape positions from `start`. -/
def drawFrom (pool : List Char) (rand : Nat → Nat) (start count : Nat) : List Char :=
  (List.range count).map (fun i => pool.getD (uniformIndex rand (start + i) pool.length) 'a')

/-- Modelled from the spec: draw `count` letters with independent per-letter
case randomization (two tape positions per character). -/
def drawMixed (pool : List Char) (rand : Nat → Nat) (start count : Nat) : List Char :=
  (List.range count).map (fun i =>
    let c := pool.getD (uniformIndex rand (start + 2 * i) pool.length) 'a'
    if uniformIndex rand (start + 2 * i + 1) 2 = 0 then c.toUpper else c)

/-- Modelled from the spec: one selection step of the Fisher-Yates shuffle,
with an explicit fuel equal to the sequence length. -/
def fyFuel (rand : Nat → Nat) : Nat → Nat → List Char → List Char
  | 0, _, _ => []
  | _ + 1, _, [] => []
  | fuel + 1, k, c :: rest =>
    let l := c :: rest
    let i := uniformIndex rand k l.length
    l.getD i c :: fyFuel rand fuel (k + 1) (l.eraseIdx i)

/-- Modelled from the spec: `SecureRandomSource.shuffle`, a Fisher-Yates
permutation driven by `uniformIndex`. -/
def fisherYates (rand : Nat → Nat) (k : Nat) (l : List Char) : List Char :=
  fyFuel rand l.length k l

/-- A character-mode configuration of the core generator. -/
structure CharacterConfig where
  length : Nat
  specialCount : Nat
  digitCount : Nat
  mixedCaseCount : Nat
  excludeAmbiguous : Bool
deriving DecidableEq

/-- Validity of a `CharacterConfig` per sections 3 and 4.1 of the spec:
fields within their documented bounds and category counts summing to at
most the length. -/
def validCharacterConfig (cfg : CharacterConfig) : Prop :=
  4 ≤ cfg.length ∧ cfg.length ≤ 256 ∧ cfg.specialCount ≤ 64 ∧ cfg.digitCount ≤ 64 ∧
    cfg.mixedCaseCount ≤ 128 ∧ cfg.specialCount + cfg.digitCount + cfg.mixedCaseCount ≤ cfg.length

instance (cfg : CharacterConfig) : Decidable (validCharacterConfig cfg) := by
  unfold validCharacterConfig; infer_instance

/-- The validation errors of the core generator (section 7 of the spec). -/
inductive ValidationError where
  | CountExceedsLength
  | OutOfRange
deriving DecidableEq

/-- Modelled from the spec: `CharacterPasswordGenerator.generate`
(section 4.4), which is implemented by `password_generator.py`, a file not
among the embedded sources. Validation runs first; then `specialCount`
specials, `digitCount` digits, `mixedCaseCount` case-randomized letters and
lowercase filler up to `length` are drawn, concatenated, and the whole
sequence is shuffled with Fisher-Yates before being returned. -/
def generateCharacterPassword (cfg : CharacterConfig) (rand : Nat → Nat) :
    Except ValidationError String :=
  if cfg.length < cfg.specialCount + cfg.digitCount + cfg.mixedCaseCount then
    .error .CountExceedsLength
  else if cfg.length < 4 || 256 < cfg.length || 64 < cfg.specialCount ||
      64 < cfg.digitCount || 128 < cfg.mixedCaseCount then
    .error .OutOfRange
  else
    let specialPool := filterAmbiguous cfg.excludeAmbiguous SPECIAL_POOL
    let digitPool := filterAmbiguous cfg.excludeAmbiguous DIGIT_POOL
    let lowerPool := filterAmbiguous cfg.excludeAmbiguous LOWERCASE_POOL
    let sp := drawFrom specialPool rand 0 cfg.specialCount
    let dg := drawFrom digitPool rand cfg.specialCount cfg.digitCount
    let mixedStart := cfg.specialCount + cfg.digitCount
    let mx := drawMixed lowerPool rand mixedStart cfg.mixedCaseCount
    let fillerCount := cfg.length - (cfg.specialCount + cfg.digitCount + cfg.mixedCaseCount)
    let fillStart := mixedStart + 2 * cfg.mixedCaseCount
    let fl := drawFrom lowerPool rand fillStart fillerCount
    let composed := sp ++ dg ++ mx ++ fl
    .ok (String.mk (fisherYates rand (fillStart + fillerCount) composed))

/-- A payload whose every field is absent, exercising all defaults. -/
def emptyPayload : Payload :=
  { mode := .undefined, length := .undefined, specialCount := .undefined,
    digitCount := .undefined, mixedCaseCount := .undefined, wordCount := .undefined,
    wordSeparator := .undefined, passphraseDigitCount := .undefined,
    passphraseSpecialCount := .undefined, passphraseMixedCount := .undefined,
    randomizeWordCapitalization := .undefined }

/-- A character-mode payload whose sanitized counts exceed its length. -/
def oversizedPayload : Payload :=
  { emptyPayload with length := .num 4, specialCount := .num 64 }

/-- A passphrase-mode payload. -/
def wordsPayload : Payload :=
  { emptyPayload with mode := .str "words" }

theorem le_clamp (v : JNum) (lo hi : ℚ) : lo ≤ clamp v lo hi := by
  cases v with
  | nan => exact le_refl lo
  | val q => exact le_max_left lo (min q hi)

theorem clamp_le (v : JNum) (lo hi : ℚ) (h : lo ≤ hi) : clamp v lo hi ≤ hi := by
  cases v with
  | nan => exact h
  | val q => exact max_le h (min_le_right q hi)

theorem clamp_of_mem (lo hi q : ℚ) (h1 : lo ≤ q) (h2 : q ≤ hi) :
    clamp (.val q) lo hi = q := by
  show max lo (min q hi) = q
  rw [min_eq_left h2, max_eq_right h1]

theorem clamp_cases (lo hi q : ℚ) :
    clamp (.val q) lo hi = lo ∨ clamp (.val q) lo hi = q ∨ clamp (.val q) lo hi = hi := by
  show max lo (min q hi) = lo ∨ max lo (min q hi) = q ∨ max lo (min q hi) = hi
  rcases le_total q hi with h | h
  · rw [min_eq_left h]
    rcases le_total lo q with h2 | h2
    · right; left; exact max_eq_right h2
    · left; exact max_eq_left h2
  · rw [min_eq_right h]
    rcases le_total lo hi with h2 | h2
    · right; right; exact max_eq_right h2
    · left; exact max_eq_left h2

theorem clamp_den (lo hi q : ℚ) (hl : lo.den = 1) (hh : hi.den = 1) (hq : q.den = 1) :
    (clamp (.val q) lo hi).den = 1 := by
  rcases clamp_cases lo hi q with h | h | h <;> rw [h] <;> assumption

theorem le_clampValue (v : JNum) (lo hi : ℚ) (h : lo ≤ hi) : lo ≤ clampValue v lo hi := by
  cases v with
  | nan => exact le_refl lo
  | val q => exact le_min (le_max_right q lo) h

theorem clampValue_le (v : JNum) (lo hi : ℚ) (h : lo ≤ hi) : clampValue v lo hi ≤ hi := by
  cases v with
  | nan => exact h
  | val q => exact min_le_right (max q lo) hi

theorem clampValue_of_mem (lo hi q : ℚ) (h1 : lo ≤ q) (h2 : q ≤ hi) :
    clampValue (.val q) lo hi = q := by
  show min (max q lo) hi = q
  rw [max_eq_left h1, min_eq_left h2]

theorem clampValue_cases (lo hi q : ℚ) :
    clampValue (.val q) lo hi = lo ∨ clampValue (.val q) lo hi = q ∨
      clampValue (.val q) lo hi = hi := by
  show min (max q lo) hi = lo ∨ min (max q lo) hi = q ∨ min (max q lo) hi = hi
  rcases le_total q lo with h | h
  · rw [max_eq_right h]
    rcases le_total lo hi with h2 | h2
    · left; exact min_eq_left h2
    · right; right; exact min_eq_right h2
  · rw [max_eq_left h]
    rcases le_total q hi with h2 | h2
    · right; left; exact min_eq_left h2
    · right; right; exact min_eq_right h2

theorem clampValue_den (lo hi q : ℚ) (hl : lo.den = 1) (hh : hi.den = 1) (hq : q.den = 1) :
    (clampValue (.val q) lo hi).den = 1 := by
  rcases clampValue_cases lo hi q with h | h | h <;> rw [h] <;> assumption

theorem clamp_idem (v : JNum) (lo hi : ℚ) (h : lo ≤ hi) :
    clamp (.val (clamp v lo hi)) lo hi = clamp v lo hi :=
  clamp_of_mem lo hi _ (le_clamp v lo hi) (clamp_le v lo hi h)

theorem clampValue_idem (v : JNum) (lo hi : ℚ) (h : lo ≤ hi) :
    clampValue (.val (clampValue v lo hi)) lo hi = clampValue v lo hi :=
  clampValue_of_mem lo hi _ (le_clampValue v lo hi h) (clampValue_le v lo hi h)

theorem LIMITS_wf (k : NumKey) :
    (LIMITS k).min ≤ (LIMITS k).max ∧ (LIMITS k).min ≤ (LIMITS k).default ∧
      (LIMITS k).default ≤ (LIMITS k).max ∧ (LIMITS k).min.den = 1 ∧
      (LIMITS k).max.den = 1 ∧ (LIMITS k).default.den = 1 := by
  cases k <;> refine ⟨?_, ?_, ?_, ?_, ?_, ?_⟩ <;> decide

theorem CHARACTER_LIMITS_wf (f : CharField) :
    (CHARACTER_LIMITS f).min ≤ (CHARACTER_LIMITS f).max := by
  cases f <;> decide

theorem sanitizeNumber_default (raw : JSValue) (k : NumKey) (h : numberUsable raw = false) :
    sanitizeNumber raw k = (LIMITS k).default := by
  cases raw with
  | num q =>
    simp only [numberUsable, decide_eq_false_iff_not] at h
    simp [sanitizeNumber, h]
  | str s =>
    simp only [numberUsable, Bool.and_eq_false_iff, bne_eq_false_iff_eq,
      Option.not_isSome_iff_eq_none] at h
    rcases h with h | h
    · simp [sanitizeNumber, h]
    · by_cases ht : jsTrim s = ""
      · simp [sanitizeNumber, ht]
      · cases hp : jsParseInt s with
        | none => simp [sanitizeNumber, ht, hp]
        | some n => rw [hp] at h; simp at h
  | undefined => rfl
  | null => rfl
  | bool b => rfl
  | nan => rfl

/-- C10: for all rational bounds lo ≤ hi and every JavaScript number v, both
clamping helpers (`clamp` from the API route and `clampValue` from the form)
return a value in [lo, hi], return v itself whenever lo ≤ v ≤ hi, map NaN to
lo, and are idempotent: clamping an already-clamped value returns it
unchanged. -/
theorem clamp_clampValue_bounds_idem (lo hi : ℚ) (h : lo ≤ hi) (v : JNum) :
    lo ≤ clamp v lo hi ∧ clamp v lo hi ≤ hi ∧
    lo ≤ clampValue v lo hi ∧ clampValue v lo hi ≤ hi ∧
    (∀ q : ℚ, v = .val q → lo ≤ q → q ≤ hi → clamp v lo hi = q ∧ clampValue v lo hi = q) ∧
    clamp .nan lo hi = lo ∧ clampValue .nan lo hi = lo ∧
    clamp (.val (clamp v lo hi)) lo hi = clamp v lo hi ∧
    clampValue (.val (clampValue v lo hi)) lo hi = clampValue v lo hi := by
  refine ⟨le_clamp v lo hi, clamp_le v lo hi h, le_clampValue v lo hi h,
    clampValue_le v lo hi h, ?_, rfl, rfl, clamp_idem v lo hi h, clampValue_idem v lo hi h⟩
  intro q hv h1 h2
  subst hv
  exact ⟨clamp_of_mem lo hi q h1 h2, clampValue_of_mem lo hi q h1 h2⟩

/-- Witness for C10 at lo = 0, hi = 4, v = 7. -/
theorem clamp_clampValue_bounds_idem_witness :
    (0 : ℚ) ≤ 4 ∧ (0 : ℚ) ≤ clamp (.val 7) 0 4 :=
  ⟨by norm_num, (clamp_clampValue_bounds_idem 0 4 (by norm_num) (.val 7)).1⟩

/-- C3: for every numeric field and every input value, `sanitizeNumber`
returns an integer within the field's configured [min, max] bounds; an
integer number (or a non-blank string parsing to an integer) is clamped into
the bounds, and any other input yields the field's configured default. -/
theorem sanitizeNumber_clamps_or_defaults (raw : JSValue) (k : NumKey) :
    (sanitizeNumber raw k).den = 1 ∧
    (LIMITS k).min ≤ sanitizeNumber raw k ∧ sanitizeNumber raw k ≤ (LIMITS k).max ∧
    (∀ q : ℚ, raw = .num q → q.den = 1 →
      sanitizeNumber raw k = clamp (.val q) (LIMITS k).min (LIMITS k).max) ∧
    (∀ (s : String) (n : Int), raw = .str s → jsTrim s ≠ "" → jsParseInt s = some n →
      sanitizeNumber raw k = clamp (.val (n : ℚ)) (LIMITS k).min (LIMITS k).max) ∧
    (numberUsable raw = false → sanitizeNumber raw k = (LIMITS k).default) := by
  obtain ⟨hlh, hld, hdh, hl1, hh1, hd1⟩ := LIMITS_wf k
  have hdefault : (LIMITS k).default.den = 1 ∧ (LIMITS k).min ≤ (LIMITS k).default ∧
      (LIMITS k).default ≤ (LIMITS k).max := ⟨hd1, hld, hdh⟩
  cases raw with
  | num q =>
    by_cases hq : q.den = 1
    · have heq : sanitizeNumber (.num q) k =
          clamp (.val q) (LIMITS k).min (LIMITS k).max := by
        simp [sanitizeNumber, hq]
      refine ⟨?_, ?_, ?_, ?_, ?_, ?_⟩
      · rw [heq]; exact clamp_den _ _ _ hl1 hh1 hq
      · rw [heq]; exact le_clamp _ _ _
      · rw [heq]; exact clamp_le _ _ _ hlh
      · intro q' hq' hden
        injection hq' with hq'
        subst hq'
        exact heq
      · intro s n hs
        exact absurd hs (by simp)
      · intro hu
        simp [numberUsable, hq] at hu
    · have heq : sanitizeNumber (.num q) k = (LIMITS k).default := by
        simp [sanitizeNumber, hq]
      refine ⟨?_, ?_, ?_, ?_, ?_, fun _ => heq⟩
      · rw [heq]; exact hd1
      · rw [heq]; exact hld
      · rw [heq]; exact hdh
      · intro q' hq' hden
        injection hq' with hq'
        subst hq'
        exact absurd hden hq
      · intro s n hs
        exact absurd hs (by simp)
  | str s =>
    by_cases ht : jsTrim s = ""
    · have heq : sanitizeNumber (.str s) k = (LIMITS k).default := by
        simp [sanitizeNumber, ht]
      refine ⟨?_, ?_, ?_, ?_, ?_, fun _ => heq⟩
      · rw [heq]; exact hd1
      · rw [heq]; exact hld
      · rw [heq]; exact hdh
      · intro q' hq' hden
        exact absurd hq' (by simp)
      · intro s' n hs' htr hp
        injection hs' with hs'
        subst hs'
        exact absurd ht htr
    · cases hp : jsParseInt s with
      | some n =>
        have heq : sanitizeNumber (.str s) k =
            clamp (.val (n : ℚ)) (LIMITS k).min (LIMITS k).max := by
          simp [sanitizeNumber, ht, hp]
        refine ⟨?_, ?_, ?_, ?_, ?_, ?_⟩
        · rw [heq]; exact clamp_den _ _ _ hl1 hh1 (Rat.den_intCast n)
        · rw [heq]; exact le_clamp _ _ _
        · rw [heq]; exact clamp_le _ _ _ hlh
        · intro q' hq' hden
          exact absurd hq' (by simp)
        · intro s' n' hs' htr hp'
          injection hs' with hs'
          subst hs'
          rw [hp] at hp'
          injection hp' with hp'
          subst hp'
          exact heq
        · intro hu
          simp [numberUsable, ht, hp] at hu
      | none =>
        have heq : sanitizeNumber (.str s) k = (LIMITS k).default := by
          simp [sanitizeNumber, ht, hp]
        refine ⟨?_, ?_, ?_, ?_, ?_, fun _ => heq⟩
        · rw [heq]; exact hd1
        · rw [heq]; exact hld
        · rw [heq]; exact hdh
        · intro q' hq' hden
          exact absurd hq' (by simp)
        · intro s' n' hs' htr hp'
          injection hs' with hs'
          subst hs'
          rw [hp] at hp'
          exact absurd hp' (by simp)
  | undefined =>
    exact ⟨hd1, hld, hdh, fun q hq => absurd hq (by simp),
      fun s n hs => absurd hs (by simp), fun _ => rfl⟩
  | null =>
    exact ⟨hd1, hld, hdh, fun q hq => absurd hq (by simp),
      fun s n hs => absurd hs (by simp), fun _ => rfl⟩
  | bool b =>
    exact ⟨hd1, hld, hdh, fun q hq => absurd hq (by simp),
      fun s n hs => absurd hs (by simp), fun _ => rfl⟩
  | nan =>
    exact ⟨hd1, hld, hdh, fun q hq => absurd hq (by simp),
      fun s n hs => absurd hs (by simp), fun _ => rfl⟩

/-- Witness for C3 at raw = 500 on the length field: the bounds hold. -/
theorem sanitizeNumber_clamps_or_defaults_witness :
    (LIMITS .length).min ≤ sanitizeNumber (.num 500) .length ∧
      sanitizeNumber (.num 500) .length ≤ (LIMITS .length).max :=
  ⟨(sanitizeNumber_clamps_or_defaults (.num 500) .length).2.1,
   (sanitizeNumber_clamps_or_defaults (.num 500) .length).2.2.1⟩

/-- C4: the separator passed onward to the generator is a non-empty string of
1 to 5 characters from the safe class; a non-string, a string trimming to
empty, or a trimmed string failing the safe class is replaced by `"-"`; and
the passphrase argument vector carries exactly this sanitized separator after
the `--word-separator` flag. -/
theorem separator_sanitized_safe (raw : JSValue) :
    1 ≤ (sanitizeSeparator raw).length ∧ (sanitizeSeparator raw).length ≤ 5 ∧
    (sanitizeSeparator raw).data.all isSafeSeparatorChar = true ∧
    ((∀ s, raw ≠ .str s) → sanitizeSeparator raw = "-") ∧
    (∀ s, raw = .str s → jsTrim s = "" → sanitizeSeparator raw = "-") ∧
    (∀ s, raw = .str s → ¬ (jsTrim s).data.all isSafeSeparatorChar →
      sanitizeSeparator raw = "-") ∧
    (∀ p : Payload, p.mode = .str "words" →
      routeRequest (some p) = .invoke (passphraseArgs p) ∧
      ∃ pre post, passphraseArgs p =
        pre ++ "--word-separator" :: sanitizeSeparator p.wordSeparator :: post) := by
  have hroute : ∀ p : Payload, p.mode = .str "words" →
      routeRequest (some p) = .invoke (passphraseArgs p) ∧
      ∃ pre post, passphraseArgs p =
        pre ++ "--word-separator" :: sanitizeSeparator p.wordSeparator :: post := by
    intro p hm
    constructor
    · simp [routeRequest, selectedMode, hm]
    · refine ⟨["--use-words", "--word-count", jsNumToString (sanitizeNumber p.wordCount .wordCount)],
        ["--passphrase-digit-count",
         jsNumToString (sanitizeNumber p.passphraseDigitCount .passphraseDigitCount),
         "--passphrase-special-count",
         jsNumToString (sanitizeNumber p.passphraseSpecialCount .passphraseSpecialCount),
         "--passphrase-mixed-count",
         jsNumToString (sanitizeNumber p.passphraseMixedCount .passphraseMixedCount)] ++
        (if sanitizeBoolean p.randomizeWordCapitalization true then ["--randomize-word-case"]
         else ["--no-randomize-word-case"]), ?_⟩
      rfl
  cases raw with
  | str s =>
    by_cases ht : jsTrim s = ""
    · have heq : sanitizeSeparator (.str s) = "-" := by simp [sanitizeSeparator, ht]
      rw [heq]
      refine ⟨by decide, by decide, by decide, fun _ => rfl, fun _ _ _ => rfl,
        fun _ _ _ => rfl, hroute⟩
    · by_cases hm : safeSeparatorMatch (jsTrim s)
      · have heq : sanitizeSeparator (.str s) = jsTrim s := by
          simp [sanitizeSeparator, ht, hm]
        have hall : (jsTrim s).data.all isSafeSeparatorChar = true := by
          have := hm
          unfold safeSeparatorMatch at this
          exact (Bool.and_eq_true_iff.mp this).2
        have hlen : (jsTrim s).length ≤ 5 := by
          have := hm
          unfold safeSeparatorMatch at this
          have h5 := (Bool.and_eq_true_iff.mp this).1
          exact of_decide_eq_true h5
        have hpos : 1 ≤ (jsTrim s).length := by
          have hne : (jsTrim s).data ≠ [] := by
            intro hd
            exact ht (String.ext hd)
          have : 0 < (jsTrim s).data.length := List.length_pos.mpr hne
          exact this
        rw [heq]
        refine ⟨hpos, hlen, hall, ?_, ?_, ?_, hroute⟩
        · intro hns
          exact absurd rfl (hns s)
        · intro s' hs' ht'
          injection hs' with hs'
          subst hs'
          exact absurd ht' ht
        · intro s' hs' hall'
          injection hs' with hs'
          subst hs'
          exact absurd hall hall'
      · have heq : sanitizeSeparator (.str s) = "-" := by
          simp [sanitizeSeparator, ht, hm]
        rw [heq]
        refine ⟨by decide, by decide, by decide, fun _ => rfl, fun _ _ _ => rfl,
          fun _ _ _ => rfl, hroute⟩
  | undefined =>
    exact ⟨by decide, by decide, by decide, fun _ => rfl, fun s hs => absurd hs (by simp),
      fun s hs => absurd hs (by simp), hroute⟩
  | null =>
    exact ⟨by decide, by decide, by decide, fun _ => rfl, fun s hs => absurd hs (by simp),
      fun s hs => absurd hs (by simp), hroute⟩
  | bool b =>
    have heq : sanitizeSeparator (.bool b) = "-" := rfl
    rw [heq]
    exact ⟨by decide, by decide, by decide, fun _ => rfl, fun s hs => absurd hs (by simp),
      fun s hs => absurd hs (by simp), hroute⟩
  | num q =>
    have heq : sanitizeSeparator (.num q) = "-" := rfl
    rw [heq]
    exact ⟨by decide, by decide, by decide, fun _ => rfl, fun s hs => absurd hs (by simp),
      fun s hs => absurd hs (by simp), hroute⟩
  | nan =>
    exact ⟨by decide, by decide, by decide, fun _ => rfl, fun s hs => absurd hs (by simp),
      fun s hs => absurd hs (by simp), hroute⟩

/-- Witness for C4 at a separator containing an unsafe character. -/
theorem separator_sanitized_safe_witness :
    sanitizeSeparator (.str "a b") = "-" :=
  (separator_sanitized_safe (.str "a b")).2.2.2.2.2.1 "a b" rfl (by decide)

/-- C7: every absent or unusable request field receives its documented
default (length 16, specialCount 2, digitCount 2, mixedCaseCount 6,
wordCount 4, separator "-", passphraseDigitCount 2, passphraseSpecialCount 1,
passphraseMixedCount 2, randomizeWordCapitalization true), and the front
end's initial form state holds these same defaults. -/
theorem defaults_applied (raw : JSValue) :
    (numberUsable raw = false →
      sanitizeNumber raw .length = 16 ∧ sanitizeNumber raw .specialCount = 2 ∧
      sanitizeNumber raw .digitCount = 2 ∧ sanitizeNumber raw .mixedCaseCount = 6 ∧
      sanitizeNumber raw .wordCount = 4 ∧ sanitizeNumber raw .passphraseDigitCount = 2 ∧
      sanitizeNumber raw .passphraseSpecialCount = 1 ∧
      sanitizeNumber raw .passphraseMixedCount = 2) ∧
    (separatorUsable raw = false → sanitizeSeparator raw = "-") ∧
    (booleanUsable raw = false → sanitizeBoolean raw true = true) ∧
    initialCharacterState = CharacterFormState.mk 16 2 2 6 false ∧
    initialPassphraseState = PassphraseFormState.mk 4 "-" 2 1 2 true false := by
  refine ⟨?_, ?_, ?_, rfl, rfl⟩
  · intro h
    exact ⟨sanitizeNumber_default raw .length h, sanitizeNumber_default raw .specialCount h,
      sanitizeNumber_default raw .digitCount h, sanitizeNumber_default raw .mixedCaseCount h,
      sanitizeNumber_default raw .wordCount h,
      sanitizeNumber_default raw .passphraseDigitCount h,
      sanitizeNumber_default raw .passphraseSpecialCount h,
      sanitizeNumber_default raw .passphraseMixedCount h⟩
  · intro h
    cases raw with
    | str s =>
      simp only [separatorUsable, Bool.and_eq_false_iff, bne_eq_false_iff_eq] at h
      rcases h with h | h
      · simp [sanitizeSeparator, h]
      · by_cases ht : jsTrim s = ""
        · simp [sanitizeSeparator, ht]
        · simp [sanitizeSeparator, ht, h]
    | undefined => rfl
    | null => rfl
    | bool b => rfl
    | num q => rfl
    | nan => rfl
  · intro h
    cases raw with
    | bool b => simp [booleanUsable] at h
    | str s =>
      simp only [booleanUsable, Bool.or_eq_false_iff, beq_eq_false_iff_ne, ne_eq] at h
      simp [sanitizeBoolean, h.1, h.2]
    | undefined => rfl
    | null => rfl
    | num q => rfl
    | nan => rfl

/-- Witness for C7 at an absent field. -/
theorem defaults_applied_witness :
    numberUsable .undefined = false ∧ sanitizeNumber .undefined .length = 16 :=
  ⟨rfl, ((defaults_applied .undefined).1 rfl).1⟩

/-- C9: every numeric character-form update keeps each field within its
documented bounds (length in [4, 256], specialCount in [0, 64], digitCount
in [0, 64], mixedCaseCount in [0, 128]): the new value is the parsed input
clamped into the field's limits, and an input that does not parse falls back
to the previous value. -/
theorem characterForm_update_preserves_bounds (f : CharField) (prev : CharacterFormState)
    (input : String) (h : charInBounds prev) :
    charInBounds (updateCharacterField f prev input) ∧
    charFieldValue (updateCharacterField f prev input) f =
      clampValue (.val (parseToInt input (charFieldValue prev f)))
        (CHARACTER_LIMITS f).min (CHARACTER_LIMITS f).max ∧
    ((input = "" ∨ jsParseInt input = none) →
      charFieldValue (updateCharacterField f prev input) f = charFieldValue prev f) ∧
    CHARACTER_LIMITS .length = ⟨4, 256⟩ ∧ CHARACTER_LIMITS .specialCount = ⟨0, 64⟩ ∧
    CHARACTER_LIMITS .digitCount = ⟨0, 64⟩ ∧ CHARACTER_LIMITS .mixedCaseCount = ⟨0, 128⟩ := by
  have hfallback : ∀ q : ℚ, (input = "" ∨ jsParseInt input = none) →
      parseToInt input q = q := by
    intro q hp
    rcases hp with hp | hp
    · simp [parseToInt, hp]
    · by_cases he : input = ""
      · simp [parseToInt, he]
      · simp [parseToInt, he, hp]
  cases f with
  | length =>
    refine ⟨⟨⟨le_clampValue _ _ _ (by decide), clampValue_le _ _ _ (by decide)⟩,
      h.2.1, h.2.2.1, h.2.2.2⟩, rfl, ?_, rfl, rfl, rfl, rfl⟩
    intro hp
    show clampValue (.val (parseToInt input prev.length))
      (CHARACTER_LIMITS CharField.length).min (CHARACTER_LIMITS CharField.length).max =
        prev.length
    rw [hfallback prev.length hp]
    exact clampValue_of_mem _ _ _ h.1.1 h.1.2
  | specialCount =>
    refine ⟨⟨h.1, ⟨le_clampValue _ _ _ (by decide), clampValue_le _ _ _ (by decide)⟩,
      h.2.2.1, h.2.2.2⟩, rfl, ?_, rfl, rfl, rfl, rfl⟩
    intro hp
    show clampValue (.val (parseToInt input prev.specialCount))
      (CHARACTER_LIMITS CharField.specialCount).min
      (CHARACTER_LIMITS CharField.specialCount).max = prev.specialCount
    rw [hfallback prev.specialCount hp]
    exact clampValue_of_mem _ _ _ h.2.1.1 h.2.1.2
  | digitCount =>
    refine ⟨⟨h.1, h.2.1, ⟨le_clampValue _ _ _ (by decide), clampValue_le _ _ _ (by decide)⟩,
      h.2.2.2⟩, rfl, ?_, rfl, rfl, rfl, rfl⟩
    intro hp
    show clampValue (.val (parseToInt input prev.digitCount))
      (CHARACTER_LIMITS CharField.digitCount).min
      (CHARACTER_LIMITS CharField.digitCount).max = prev.digitCount
    rw [hfallback prev.digitCount hp]
    exact clampValue_of_mem _ _ _ h.2.2.1.1 h.2.2.1.2
  | mixedCaseCount =>
    refine ⟨⟨h.1, h.2.1, h.2.2.1,
      ⟨le_clampValue _ _ _ (by decide), clampValue_le _ _ _ (by decide)⟩⟩, rfl, ?_,
      rfl, rfl, rfl, rfl⟩
    intro hp
    show clampValue (.val (parseToInt input prev.mixedCaseCount))
      (CHARACTER_LIMITS CharField.mixedCaseCount).min
      (CHARACTER_LIMITS CharField.mixedCaseCount).max = prev.mixedCaseCount
    rw [hfallback prev.mixedCaseCount hp]
    exact clampValue_of_mem _ _ _ h.2.2.2.1 h.2.2.2.2

/-- Witness for C9: updating the length field of the default state with the
input string 300 keeps the state within bounds. -/
theorem characterForm_update_preserves_bounds_witness :
    charInBounds CHARACTER_DEFAULTS ∧
      charInBounds (updateCharacterField .length CHARACTER_DEFAULTS "300") :=
  ⟨by decide,
   (characterForm_update_preserves_bounds .length CHARACTER_DEFAULTS "300" (by decide)).1⟩

/-- C8: the POST handler selects passphrase mode exactly when the mode field
is the string "words"; any other mode value is processed as character mode,
and no mode value is ever rejected as invalid (the only early rejection of a
parsed payload is the count check). -/
theorem mode_words_iff (p : Payload) :
    (selectedMode p = .words ↔ p.mode = .str "words") ∧
    (p.mode = .str "words" → routeRequest (some p) = .invoke (passphraseArgs p)) ∧
    (p.mode ≠ .str "words" →
      (charCountsExceed p ∧ routeRequest (some p) =
        .early ⟨400, .error "Sum of selected character counts cannot exceed total length."⟩) ∨
      (¬ charCountsExceed p ∧ routeRequest (some p) = .invoke (characterArgs p))) ∧
    (∀ r, routeRequest (some p) = .early r →
      r = ⟨400, .error "Sum of selected character counts cannot exceed total length."⟩) := by
  by_cases hm : p.mode = .str "words"
  · have hsel : selectedMode p = .words := by simp [selectedMode, hm]
    have hroute : routeRequest (some p) = .invoke (passphraseArgs p) := by
      simp [routeRequest, hsel]
    refine ⟨⟨fun _ => hm, fun _ => hsel⟩, fun _ => hroute, fun hne => absurd hm hne, ?_⟩
    intro r hr
    rw [hroute] at hr
    exact absurd hr (by simp)
  · have hsel : selectedMode p = .characters := by simp [selectedMode, hm]
    by_cases hc : charCountsExceed p
    · have hroute : routeRequest (some p) =
          .early ⟨400, .error "Sum of selected character counts cannot exceed total length."⟩ := by
        simp [routeRequest, hsel, hc]
      refine ⟨⟨fun hw => absurd (hsel ▸ hw) (by simp), fun hmm => absurd hmm hm⟩,
        fun hmm => absurd hmm hm, fun _ => Or.inl ⟨hc, hroute⟩, ?_⟩
      intro r hr
      rw [hroute] at hr
      injection hr with hr
      exact hr.symm
    · have hroute : routeRequest (some p) = .invoke (characterArgs p) := by
        simp [routeRequest, hsel, hc]
      refine ⟨⟨fun hw => absurd (hsel ▸ hw) (by simp), fun hmm => absurd hmm hm⟩,
        fun hmm => absurd hmm hm, fun _ => Or.inr ⟨hc, hroute⟩, ?_⟩
      intro r hr
      rw [hroute] at hr
      exact absurd hr (by simp)

/-- Witness for C8 at a payload whose mode is the string "words". -/
theorem mode_words_iff_witness : selectedMode wordsPayload = Mode.words :=
  (mode_words_iff wordsPayload).1.mpr rfl

/-- C1: when the sanitized category counts of a character-mode request exceed
the sanitized length, the handler routes to an early 400 error response (so
`invokePython` is never invoked and no randomness is consumed), and the POST
response is that 400 error regardless of any subprocess outcome. -/
theorem countExceedsLength_rejects_before_invoke (p : Payload)
    (hm : p.mode ≠ .str "words") (hc : charCountsExceed p) :
    routeRequest (some p) =
      .early ⟨400, .error "Sum of selected character counts cannot exceed total length."⟩ ∧
    ∀ proc : ProcOutcome, POST (some p) proc =
      ⟨400, .error "Sum of selected character counts cannot exceed total length."⟩ := by
  have hsel : selectedMode p = .characters := by simp [selectedMode, hm]
  have hroute : routeRequest (some p) =
      .early ⟨400, .error "Sum of selected character counts cannot exceed total length."⟩ := by
    simp [routeRequest, hsel, hc]
  exact ⟨hroute, fun proc => by simp [POST, hroute]⟩

/-- Witness for C1 at a request of length 4 demanding 64 special characters. -/
theorem countExceedsLength_rejects_before_invoke_witness :
    oversizedPayload.mode ≠ JSValue.str "words" ∧ charCountsExceed oversizedPayload ∧
      POST (some oversizedPayload) (.closed (some 0) "irrelevant\n" "") =
        ⟨400, .error "Sum of selected character counts cannot exceed total length."⟩ := by
  have hm : oversizedPayload.mode ≠ JSValue.str "words" := by decide
  have hc : charCountsExceed oversizedPayload := by
    have h1 : sanitizeNumber oversizedPayload.specialCount .specialCount = 64 := by decide
    have h2 : sanitizeNumber oversizedPayload.digitCount .digitCount = 2 := by decide
    have h3 : sanitizeNumber oversizedPayload.mixedCaseCount .mixedCaseCount = 6 := by decide
    have h4 : sanitizeNumber oversizedPayload.length .length = 4 := by decide
    unfold charCountsExceed
    rw [h1, h2, h3, h4]
    norm_num
  exact ⟨hm, hc,
    (countExceedsLength_rejects_before_invoke oversizedPayload hm hc).2
      (.closed (some 0) "irrelevant\n" "")⟩

/-- Helper for the amended C2: over the field-readable payloads, every POST
response is exactly one of a 200 with a password body (when the generator
subprocess succeeds), a 400 with an error body (only for an unparseable JSON
body or a character-mode count overflow), or a 500 with an error body (when
the generator subprocess fails). -/
theorem post_returns_exactly_password_or_400_or_500 (req : Option Payload)
    (proc : ProcOutcome) :
    (∃ pw, POST req proc = ⟨200, .password pw⟩ ∧ invokePython proc = .ok pw ∧
      ∃ args, routeRequest req = .invoke args) ∨
    (∃ msg, POST req proc = ⟨400, .error msg⟩ ∧
      (req = none ∨ ∃ p, req = some p ∧ selectedMode p = .characters ∧ charCountsExceed p)) ∨
    (∃ err, POST req proc = ⟨500, .error "Unable to generate password at this time."⟩ ∧
      invokePython proc = .error err) := by
  cases req with
  | none =>
    right; left
    exact ⟨"Invalid JSON body.", by simp [POST, routeRequest], Or.inl rfl⟩
  | some p =>
    cases hmode : selectedMode p with
    | characters =>
      by_cases hc : charCountsExceed p
      · right; left
        refine ⟨"Sum of selected character counts cannot exceed total length.", ?_,
          Or.inr ⟨p, rfl, hmode, hc⟩⟩
        simp [POST, routeRequest, hmode, hc]
      · have hroute : routeRequest (some p) = .invoke (characterArgs p) := by
          simp [routeRequest, hmode, hc]
        cases hinv : invokePython proc with
        | ok pw =>
          left
          exact ⟨pw, by simp [POST, hroute, hinv], rfl, characterArgs p, hroute⟩
        | error e =>
          right; right
          exact ⟨e, by simp [POST, hroute, hinv], rfl⟩
    | words =>
      have hroute : routeRequest (some p) = .invoke (passphraseArgs p) := by
        simp [routeRequest, hmode]
      cases hinv : invokePython proc with
      | ok pw =>
        left
        exact ⟨pw, by simp [POST, hroute, hinv], rfl, passphraseArgs p, hroute⟩
      | error e =>
        right; right
        exact ⟨e, by simp [POST, hroute, hinv], rfl⟩

/-- C6 counterexample: with exit code 1 and stderr whose content carries
surrounding whitespace, the rejection message is the trimmed stderr, which
is neither the stderr verbatim nor the generic failure message. -/
theorem invokePython_stderr_not_verbatim :
    invokePython (.closed (some 1) "" " boom \n") = .error "boom" ∧
    "boom" ≠ " boom \n" ∧ "boom" ≠ "Password generator failed." :=
  ⟨rfl, by decide, by decide⟩

/-- C6 (amended): with exit code 0, `invokePython` resolves to the trimmed
last non-blank line of stdout and rejects when there is none; with a nonzero
(or null) exit code it rejects with the trimmed stderr when that is
non-empty, and with the generic failure message otherwise. -/
theorem invokePython_resolution (code : Option Int) (stdout stderr : String) :
    (code = some 0 →
      (∀ line, lastNonBlankLine stdout = some line →
        invokePython (.closed code stdout stderr) = .ok (jsTrim line)) ∧
      (lastNonBlankLine stdout = none →
        invokePython (.closed code stdout stderr) =
          .error "Password generator produced no output.")) ∧
    (code ≠ some 0 →
      (jsTrim stderr ≠ "" →
        invokePython (.closed code stdout stderr) = .error (jsTrim stderr)) ∧
      (jsTrim stderr = "" →
        invokePython (.closed code stdout stderr) = .error "Password generator failed.")) := by
  constructor
  · intro h0
    constructor
    · intro line hl
      simp [invokePython, h0, hl]
    · intro hl
      simp [invokePython, h0, hl]
  · intro hne
    constructor
    · intro hs
      simp [invokePython, hne, hs]
    · intro hs
      simp [invokePython, hne, hs]

/-- Witness for the amended C6: a stdout with a trailing blank line resolves
to the trimmed last non-blank line. -/
theorem invokePython_resolution_witness :
    lastNonBlankLine "a\r\n pw \n\n" = some " pw" ∧
      invokePython (.closed (some 0) "a\r\n pw \n\n" "") = .ok (jsTrim " pw") :=
  ⟨rfl, ((invokePython_resolution (some 0) "a\r\n pw \n\n" "").1 rfl).1 " pw" rfl⟩

theorem length_drawFrom (pool : List Char) (rand : Nat → Nat) (start count : Nat) :
    (drawFrom pool rand start count).length = count := by
  simp [drawFrom]

theorem length_drawMixed (pool : List Char) (rand : Nat → Nat) (start count : Nat) :
    (drawMixed pool rand start count).length = count := by
  simp [drawMixed]

theorem length_fyFuel (rand : Nat → Nat) :
    ∀ (fuel k : Nat) (l : List Char), (fyFuel rand fuel k l).length = min fuel l.length := by
  intro fuel
  induction fuel with
  | zero => intro k l; simp [fyFuel]
  | succ n ih =>
    intro k l
    cases l with
    | nil => simp [fyFuel]
    | cons c rest =>
      have hpos : 0 < (c :: rest).length := by simp
      have hi : uniformIndex rand k (c :: rest).length < (c :: rest).length :=
        Nat.mod_lt _ hpos
      have hi2 : uniformIndex rand k (rest.length + 1) < (c :: rest).length := by
        simpa using hi
      simp only [fyFuel, List.length_cons]
      rw [ih, List.length_eraseIdx_of_lt hi2]
      simp only [List.length_cons]
      omega

theorem length_fisherYates (rand : Nat → Nat) (k : Nat) (l : List Char) :
    (fisherYates rand k l).length = l.length := by
  simp [fisherYates, length_fyFuel]

/-- C5 (spec-modelled): for every valid CharacterConfig, the generated
character password has length exactly equal to the configured length. -/
theorem generateCharacterPassword_length_exact (cfg : CharacterConfig) (rand : Nat → Nat)
    (h : validCharacterConfig cfg) :
    ∃ pw, generateCharacterPassword cfg rand = .ok pw ∧ pw.length = cfg.length := by
  obtain ⟨h4, h256, hs, hd, hm, hsum⟩ := h
  have hc1 : ¬ (cfg.length < cfg.specialCount + cfg.digitCount + cfg.mixedCaseCount) := by
    omega
  have hc2 : ¬ ((cfg.length < 4 || 256 < cfg.length || 64 < cfg.specialCount ||
      64 < cfg.digitCount || 128 < cfg.mixedCaseCount) = true) := by
    simp only [Bool.or_eq_true, decide_eq_true_eq, not_or]
    omega
  unfold generateCharacterPassword
  rw [if_neg hc1, if_neg hc2]
  refine ⟨_, rfl, ?_⟩
  show (fisherYates rand _ _).length = cfg.length
  rw [length_fisherYates]
  simp only [List.length_append, length_drawFrom, length_drawMixed]
  omega

/-- Witness for C5 at the default character configuration and an arbitrary
random tape. -/
theorem generateCharacterPassword_length_exact_witness :
    validCharacterConfig ⟨16, 2, 2, 6, false⟩ ∧
      ∃ pw, generateCharacterPassword ⟨16, 2, 2, 6, false⟩ (fun _ => 0) = .ok pw ∧
        pw.length = 16 :=
  ⟨by decide,
   generateCharacterPassword_length_exact ⟨16, 2, 2, 6, false⟩ (fun _ => 0) (by decide)⟩

/-- C2 counterexample: a request body that is the valid JSON value null
parses successfully, so the catch around `request.json()` does not fire, and
the subsequent `payload.mode` read throws an uncaught TypeError outside both
try blocks; even with a successful subprocess outcome available, the handler
produces none of the three enumerated responses. -/
theorem post_nullBody_escapes_handler :
    POSTFull .nullBody (.closed (some 0) "pw\n" "") = .uncaught ∧
    isEnumeratedResponse (POSTFull .nullBody (.closed (some 0) "pw\n" "")) = false :=
  ⟨rfl, rfl⟩

/-- C2 (amended): for every request whose body does not parse to JSON null,
the POST handler returns exactly one of a 200 with a password body (when the
generator subprocess succeeds), a 400 with an error body (only for an
unparseable JSON body or a character-mode count overflow), or a 500 with an
error body (when the generator subprocess fails); a null body instead
escapes the handler as an uncaught TypeError. -/
theorem post_full_trichotomy (req : ParsedBody) (proc : ProcOutcome)
    (h : req ≠ ParsedBody.nullBody) :
    (∃ pw, POSTFull req proc = .response ⟨200, .password pw⟩ ∧
      invokePython proc = .ok pw) ∨
    (∃ msg, POSTFull req proc = .response ⟨400, .error msg⟩ ∧
      (req = .failed ∨ ∃ p, req = .obj p ∧ selectedMode p = .characters ∧
        charCountsExceed p)) ∨
    (∃ err, POSTFull req proc =
        .response ⟨500, .error "Unable to generate password at this time."⟩ ∧
      invokePython proc = .error err) := by
  cases req with
  | nullBody => exact absurd rfl h
  | failed =>
    right; left
    exact ⟨"Invalid JSON body.", by simp [POSTFull, POST, routeRequest], Or.inl rfl⟩
  | obj p =>
    rcases post_returns_exactly_password_or_400_or_500 (some p) proc with
      ⟨pw, hp, hi, _⟩ | ⟨msg, hp, hcond⟩ | ⟨err, hp, hi⟩
    · left
      exact ⟨pw, by simp [POSTFull, hp], hi⟩
    · right; left
      refine ⟨msg, by simp [POSTFull, hp], ?_⟩
      rcases hcond with hnone | ⟨p2, hpp, hsel, hc⟩
      · exact absurd hnone (by simp)
      · injection hpp with hpp
        subst hpp
        exact Or.inr ⟨p, rfl, hsel, hc⟩
    · right; right
      exact ⟨err, by simp [POSTFull, hp], hi⟩

/-- Witness for the amended C2 at a parse failure and a successful
subprocess outcome. -/
theorem post_full_trichotomy_witness :
    (ParsedBody.failed ≠ ParsedBody.nullBody) ∧
    ((∃ pw, POSTFull .failed (.closed (some 0) "pw\n" "") = .response ⟨200, .password pw⟩ ∧
        invokePython (.closed (some 0) "pw\n" "") = .ok pw) ∨
     (∃ msg, POSTFull .failed (.closed (some 0) "pw\n" "") = .response ⟨400, .error msg⟩ ∧
        (ParsedBody.failed = .failed ∨ ∃ p, ParsedBody.failed = .obj p ∧
          selectedMode p = .characters ∧ charCountsExceed p)) ∨
     (∃ err, POSTFull .failed (.closed (some 0) "pw\n" "") =
          .response ⟨500, .error "Unable to generate password at this time."⟩ ∧
        invokePython (.closed (some 0) "pw\n" "") = .error err)) :=
  ⟨by decide, post_full_trichotomy .failed (.closed (some 0) "pw\n" "") (by decide)⟩
